import Mathlib

/-!
Verification of the RealNVP training repository (data_utils.py, train_rgb.py).

The numeric transform pipeline (`logit_transform`) is embedded over the real
numbers; tensors of shape [B, C, H, W] are modelled as functions
`Fin B → Fin C → Fin H → Fin W → ℝ`.  The training loop of `train_rgb.main`
is embedded as a step function on an explicit state, with the per-epoch mean
validation log-likelihood supplied as an oracle `ℕ → ℚ` (rationals keep the
loop model executable; the loop itself only compares and stores these values).
Dataset loading (`data_utils.load`, class `CelebA`) is embedded over an
explicit path-manifest represented as a list of rows.
-/

namespace RealNVP

/-! ## Definitions: logit transform (data_utils.py, `logit_transform`) -/

/-- `F.softplus(x) = log(1 + exp(x))`, as used in the log-Jacobian of
`logit_transform`. -/
noncomputable def softplus (x : ℝ) : ℝ := Real.log (1 + Real.exp x)

/-- The sigmoid `1 / (exp(-x) + 1)` from the reverse branch of
`logit_transform` (line `x = 1. / (torch.exp(-x) + 1.)`). -/
noncomputable def sigmoid (x : ℝ) : ℝ := 1 / (Real.exp (-x) + 1)

/-- Dequantization step: `x = (x * 255. + noise) / 256.`. -/
noncomputable def dequantize (x noise : ℝ) : ℝ := (x * 255 + noise) / 256

/-- The restriction chain `x *= 2; x -= 1; x *= constraint; x += 1; x /= 2`
of the forward branch. -/
noncomputable def restrict (constraint x : ℝ) : ℝ := ((x * 2 - 1) * constraint + 1) / 2

/-- Elementwise logit `torch.log(x) - torch.log(1. - x)`. -/
noncomputable def logit (x : ℝ) : ℝ := Real.log x - Real.log (1 - x)

/-- `pre_logit_scale = log(constraint) - log(1 - constraint)`. -/
noncomputable def pre_logit_scale (constraint : ℝ) : ℝ :=
  Real.log constraint - Real.log (1 - constraint)

/-- Per-element log-Jacobian
`log_diag_J = softplus(logit_x) + softplus(-logit_x) - softplus(-pre_logit_scale)`. -/
noncomputable def log_diag_J (constraint y : ℝ) : ℝ :=
  softplus y + softplus (-y) - softplus (-(pre_logit_scale constraint))

/-- Forward branch of `logit_transform` on a [B, C, H, W] tensor, with the
dequantization noise passed explicitly.  Returns the transformed tensor and
`torch.sum(log_diag_J, dim=(1, 2, 3))`, one scalar per sample. -/
noncomputable def logit_transform_fwd {B C H W : ℕ} (constraint : ℝ)
    (x noise : Fin B → Fin C → Fin H → Fin W → ℝ) :
    (Fin B → Fin C → Fin H → Fin W → ℝ) × (Fin B → ℝ) :=
  let z : Fin B → Fin C → Fin H → Fin W → ℝ := fun b c h w =>
    logit (restrict constraint (dequantize (x b c h w) (noise b c h w)))
  (z, fun b => ∑ c, ∑ h, ∑ w, log_diag_J constraint (z b c h w))

/-- Reverse branch of `logit_transform` (elementwise):
`sigmoid`, `*= 2`, `-= 1`, `/= constraint`, `+= 1`, `/= 2`. -/
noncomputable def logit_transform_rev (constraint x : ℝ) : ℝ :=
  ((sigmoid x * 2 - 1) / constraint + 1) / 2

/-- The closed form `log c - log s - log (1-s)` with `s = sigmoid y`, the
value the spec asserts for the per-element log-Jacobian. -/
noncomputable def log_diag_J_spec (c y : ℝ) : ℝ :=
  Real.log c - Real.log (sigmoid y) - Real.log (1 - sigmoid y)

/-! ## Definitions: bits per dimension (train_rgb.py, `main`) -/

/-- `image_size = data_info.channel * data_info.size**2` (train_rgb.py line 89). -/
def image_size (channel size : ℕ) : ℕ := channel * size ^ 2

/-- Per-batch `bit_per_dim` printed during training (train_rgb.py lines 119-120):
`(-log_ll.item() + np.log(256.) * image_size) / (image_size * np.log(2.))`. -/
noncomputable def bit_per_dim_batch (log_ll D : ℝ) : ℝ :=
  (-log_ll + Real.log 256 * D) / (D * Real.log 2)

/-- Train-epoch average `mean_bit_per_dim` (train_rgb.py lines 129-130). -/
noncomputable def mean_bit_per_dim_train (mean_log_ll D : ℝ) : ℝ :=
  (-mean_log_ll + Real.log 256 * D) / (D * Real.log 2)

/-- Validation `mean_bit_per_dim` (train_rgb.py lines 156-157). -/
noncomputable def mean_bit_per_dim_val (mean_log_ll D : ℝ) : ℝ :=
  (-mean_log_ll + Real.log 256 * D) / (D * Real.log 2)

/-- The spec's bits-per-dimension formula `(-log_ll + log(256)*D) / (D*log(2))`. -/
noncomputable def bits_per_dim_spec (log_ll D : ℝ) : ℝ :=
  (-log_ll + Real.log 256 * D) / (D * Real.log 2)

/-! ## Definitions: dataset loading (data_utils.py, `CelebA` and `load`) -/

/-- One row of the CelebA path manifest (`paths.csv`): an image path index
and its partition value. -/
structure CelebARow where
  image_id : ℕ
  partition : ℕ
deriving DecidableEq, Repr

/-- The row selection performed by `CelebA.__init__`: filter on
`partition == 0/1/2` for splits "train"/"val"/"test", otherwise keep every
row. -/
def celebaSelect (split : String) (rows : List CelebARow) : List CelebARow :=
  if split = "train" then rows.filter (fun r => r.partition == 0)
  else if split = "val" then rows.filter (fun r => r.partition == 1)
  else if split = "test" then rows.filter (fun r => r.partition == 2)
  else rows

/-- `CelebA.__len__`: the number of selected rows. -/
def celebaLen (split : String) (rows : List CelebARow) : ℕ :=
  (celebaSelect split rows).length

/-- `CelebA.__getitem__` at index `idx`: the selected row whose image is
opened (the transform applied to it is irrelevant to row selection). -/
def celebaGetitem (split : String) (rows : List CelebARow) (idx : ℕ) :
    Option CelebARow :=
  (celebaSelect split rows).get? idx

/-- `DataInfo(name, channel, size)` from data_utils.py. -/
structure DataInfo where
  name : String
  channel : ℕ
  size : ℕ
deriving DecidableEq, Repr

/-- `data_utils.load`: dispatch on the dataset name, returning the train and
validation split sizes and the `DataInfo`.  The split sizes `[46000, 4000]`
and `[1250000, 31149]` are the literals passed to `random_split`; for celeba
they are the lengths of the partition-0 and partition-1 selections of the
manifest `rows`.  A name outside the four handled ones reaches the final
`return` with the split variables unassigned, which raises — modelled as
`none`. -/
def load (rows : List CelebARow) (dataset : String) :
    Option (ℕ × ℕ × DataInfo) :=
  if dataset = "cifar10" then
    some (46000, 4000, ⟨dataset, 3, 32⟩)
  else if dataset = "celeba" then
    some (celebaLen "train" rows, celebaLen "val" rows, ⟨dataset, 3, 64⟩)
  else if dataset = "imnet32" then
    some (1250000, 31149, ⟨dataset, 3, 32⟩)
  else if dataset = "imnet64" then
    some (1250000, 31149, ⟨dataset, 3, 64⟩)
  else
    none

/-- The call site `train_split, val_split, data_info = data_utils.load(dataset)`
in `train_rgb.main` (line 71): no `try`/`except` around it, so a failing
`load` makes the whole of `main` fail — modelled by propagating `none`. -/
def main_load (rows : List CelebARow) (dataset : String) :
    Option (ℕ × ℕ × DataInfo) :=
  load rows dataset

/-! ## Definitions: training loop (train_rgb.py, `main`) -/

/-- The loop-carried state of `train_rgb.main`: the epoch counter, the best
mean validation log-likelihood seen so far (`optimal_log_ll`, initialised to
`float('-inf')`, modelled by `none`), and the early-stop counter. -/
structure LoopState where
  epoch : ℕ
  optimal_log_ll : Option ℚ
  early_stop : ℕ
deriving DecidableEq, Repr

/-- Initial state: `epoch = 0`, `optimal_log_ll = float('-inf')`,
`early_stop = 0` (train_rgb.py lines 83-87). -/
def initLoopState : LoopState := ⟨0, none, 0⟩

/-- The comparison `mean_log_ll > optimal_log_ll` (line 181); every finite
value exceeds the initial `-inf`. -/
def improves : Option ℚ → ℚ → Bool
  | none, _ => true
  | some o, v => decide (o < v)

/-- The saving condition at line 175:
`epoch <= 15 or epoch == 25 or epoch == 35 or epoch == 45 or epoch % 10 == 0`. -/
def sample_grid_saved_at (epoch : ℕ) : Bool :=
  decide (epoch ≤ 15) || epoch == 25 || epoch == 35 || epoch == 45 ||
    epoch % 10 == 0

/-- Observable per-epoch filesystem events of the loop body: sample
generation (line 173, unconditional), the sample-grid image save (lines
175-177) and the number of checkpoint writes to `trained_weights.pt`
(the unconditional save at line 179 plus the save on improvement at
line 184). -/
structure EpochEvents where
  samples_generated : Bool
  sample_grid_saved : Bool
  checkpoint_writes : ℕ
deriving DecidableEq, Repr

/-- One iteration of the `while epoch < args.max_epoch` body: increment the
epoch, read that epoch's mean validation log-likelihood from the oracle
`vals`, emit the epoch's events, and update `optimal_log_ll` and
`early_stop` per lines 181-188. -/
def epochStep (vals : ℕ → ℚ) (s : LoopState) : LoopState × EpochEvents :=
  let e := s.epoch + 1
  let v := vals e
  let ev : EpochEvents :=
    ⟨true, sample_grid_saved_at e, if improves s.optimal_log_ll v then 2 else 1⟩
  let s' : LoopState :=
    if improves s.optimal_log_ll v then ⟨e, some v, 0⟩
    else ⟨e, s.optimal_log_ll, s.early_stop + 1⟩
  (s', ev)

/-- The epoch loop: run epoch bodies while `epoch < maxEpoch`, breaking as
soon as `early_stop >= 100` after an epoch (line 187-188).  The fuel
argument bounds the iteration count; `run` supplies `maxEpoch` of it, which
is exact since every iteration increments `epoch`. -/
def runGo (vals : ℕ → ℚ) (maxEpoch : ℕ) : ℕ → LoopState → LoopState
  | 0, s => s
  | fuel + 1, s =>
    if s.epoch < maxEpoch then
      let s' := (epochStep vals s).1
      if 100 ≤ s'.early_stop then s' else runGo vals maxEpoch fuel s'
    else s

/-- The whole training loop of `train_rgb.main`, abstracted over the oracle
of mean validation log-likelihoods. -/
def run (vals : ℕ → ℚ) (maxEpoch : ℕ) : LoopState :=
  runGo vals maxEpoch maxEpoch initLoopState

/-! ## Theorems: logit transform -/

lemma softplus_neg_add (y : ℝ) : softplus y = y + softplus (-y) := by
  have h1 : (0:ℝ) < 1 + Real.exp (-y) := by positivity
  have h2 : Real.exp y * (1 + Real.exp (-y)) = 1 + Real.exp y := by
    rw [mul_add, mul_one, ← Real.exp_add]
    ring_nf
    rw [Real.exp_zero]
    ring
  calc softplus y = Real.log (Real.exp y * (1 + Real.exp (-y))) := by
        rw [softplus, h2]
    _ = y + softplus (-y) := by
        rw [Real.log_mul (Real.exp_ne_zero y) (ne_of_gt h1), Real.log_exp, softplus]

lemma log_sigmoid (y : ℝ) : Real.log (sigmoid y) = -(softplus (-y)) := by
  have h1 : (0:ℝ) < Real.exp (-y) + 1 := by positivity
  rw [sigmoid, one_div, Real.log_inv, softplus, add_comm (1:ℝ)]

lemma log_one_sub_sigmoid (y : ℝ) : Real.log (1 - sigmoid y) = -(softplus y) := by
  have h1 : (0:ℝ) < Real.exp (-y) + 1 := by positivity
  have h2 : 1 - sigmoid y = Real.exp (-y) / (Real.exp (-y) + 1) := by
    rw [sigmoid]
    field_simp
  rw [h2, Real.log_div (Real.exp_ne_zero _) (ne_of_gt h1), Real.log_exp,
    softplus_neg_add y, softplus, add_comm (1:ℝ)]
  ring

lemma softplus_neg_pre_logit_scale {c : ℝ} (hc0 : 0 < c) (hc1 : c < 1) :
    softplus (-(pre_logit_scale c)) = -Real.log c := by
  have h1c : (0:ℝ) < 1 - c := by linarith
  have hlog : -(pre_logit_scale c) = Real.log ((1 - c) / c) := by
    rw [pre_logit_scale, Real.log_div (ne_of_gt h1c) (ne_of_gt hc0)]
    ring
  have hpos : (0:ℝ) < (1 - c) / c := div_pos h1c hc0
  have hsum : 1 + (1 - c) / c = 1 / c := by
    field_simp
  rw [softplus, hlog, Real.exp_log hpos, hsum, one_div, Real.log_inv]

lemma log_diag_J_closed_form {c : ℝ} (hc0 : 0 < c) (hc1 : c < 1) (y : ℝ) :
    log_diag_J c y = log_diag_J_spec c y := by
  rw [log_diag_J, log_diag_J_spec, softplus_neg_pre_logit_scale hc0 hc1,
    log_sigmoid, log_one_sub_sigmoid]
  ring

/-- C1: for every constraint `c ∈ (0,1)` the per-element log-Jacobian of the
forward `logit_transform` equals the closed form
`log c - log s - log (1-s)` with `s = sigmoid(logit_x)`, and the returned
log-determinant is the sum of these closed-form values over the channel,
height and width dimensions — one scalar per sample. -/
theorem logit_transform_log_det_closed_form (c : ℝ) (hc0 : 0 < c) (hc1 : c < 1) :
    (∀ y : ℝ, log_diag_J c y = log_diag_J_spec c y) ∧
    (∀ (B C H W : ℕ) (x noise : Fin B → Fin C → Fin H → Fin W → ℝ) (b : Fin B),
      (logit_transform_fwd c x noise).2 b =
        ∑ ch : Fin C, ∑ h : Fin H, ∑ w : Fin W,
          log_diag_J_spec c ((logit_transform_fwd c x noise).1 b ch h w)) := by
  constructor
  · exact log_diag_J_closed_form hc0 hc1
  · intro B C H W x noise b
    unfold logit_transform_fwd
    simp only [log_diag_J_closed_form hc0 hc1]

/-- Witness for C1 at the default constraint 0.9. -/
theorem logit_transform_log_det_closed_form_witness :
    (0:ℝ) < 9/10 ∧ (9/10:ℝ) < 1 ∧
    ((∀ y : ℝ, log_diag_J (9/10) y = log_diag_J_spec (9/10) y) ∧
    (∀ (B C H W : ℕ) (x noise : Fin B → Fin C → Fin H → Fin W → ℝ) (b : Fin B),
      (logit_transform_fwd (9/10) x noise).2 b =
        ∑ ch : Fin C, ∑ h : Fin H, ∑ w : Fin W,
          log_diag_J_spec (9/10) ((logit_transform_fwd (9/10) x noise).1 b ch h w))) :=
  ⟨by norm_num, by norm_num,
    logit_transform_log_det_closed_form (9/10) (by norm_num) (by norm_num)⟩

lemma sigmoid_logit {s : ℝ} (hs0 : 0 < s) (hs1 : s < 1) :
    sigmoid (logit s) = s := by
  have h1s : (0:ℝ) < 1 - s := by linarith
  have hexp : Real.exp (-(logit s)) = (1 - s) / s := by
    rw [logit, neg_sub, Real.exp_sub, Real.exp_log h1s, Real.exp_log hs0]
  rw [sigmoid, hexp]
  field_simp

lemma dequantize_mem {x noise : ℝ} (hx0 : 0 ≤ x) (hx1 : x ≤ 1)
    (hn0 : 0 ≤ noise) (hn1 : noise < 1) :
    0 ≤ dequantize x noise ∧ dequantize x noise < 1 := by
  rw [dequantize]
  constructor
  · positivity
  · have : x * 255 + noise < 256 := by nlinarith
    linarith

lemma restrict_bounds {c d : ℝ} (hc0 : 0 < c) (_hc1 : c < 1)
    (hd0 : 0 ≤ d) (hd1 : d < 1) :
    (1 - c) / 2 ≤ restrict c d ∧ restrict c d < 1 - (1 - c) / 2 := by
  rw [restrict]
  constructor
  · nlinarith
  · nlinarith

/-- C7: for pixel values in [0,1], dequantization noise in [0,1) and
constraint `c ∈ (0,1)`, the restricted value lies in
`[(1-c)/2, 1-(1-c)/2)`, hence in `(0,1)`, so both logarithm arguments of
the elementwise logit are strictly positive. -/
theorem restrict_range_safe (c x noise : ℝ) (hc0 : 0 < c) (hc1 : c < 1)
    (hx0 : 0 ≤ x) (hx1 : x ≤ 1) (hn0 : 0 ≤ noise) (hn1 : noise < 1) :
    (1 - c) / 2 ≤ restrict c (dequantize x noise) ∧
    restrict c (dequantize x noise) < 1 - (1 - c) / 2 ∧
    0 < restrict c (dequantize x noise) ∧
    restrict c (dequantize x noise) < 1 ∧
    0 < 1 - restrict c (dequantize x noise) := by
  obtain ⟨hd0, hd1⟩ := dequantize_mem hx0 hx1 hn0 hn1
  obtain ⟨hlo, hhi⟩ := restrict_bounds hc0 hc1 hd0 hd1
  refine ⟨hlo, hhi, ?_, ?_, ?_⟩
  · linarith
  · linarith
  · linarith

/-- Witness for C7 at the default constraint 0.9 (interval `[0.05, 0.95)`),
pixel value 1/2 and noise 0. -/
theorem restrict_range_safe_witness :
    ((0:ℝ) < 9/10 ∧ (9/10:ℝ) < 1 ∧ (0:ℝ) ≤ 1/2 ∧ (1/2:ℝ) ≤ 1 ∧
      (0:ℝ) ≤ 0 ∧ (0:ℝ) < 1) ∧
    ((1 - 9/10) / 2 ≤ restrict (9/10) (dequantize (1/2) 0) ∧
     restrict (9/10) (dequantize (1/2) 0) < 1 - (1 - 9/10) / 2 ∧
     0 < restrict (9/10) (dequantize (1/2) 0) ∧
     restrict (9/10) (dequantize (1/2) 0) < 1 ∧
     0 < 1 - restrict (9/10) (dequantize (1/2) 0)) :=
  ⟨⟨by norm_num, by norm_num, by norm_num, by norm_num, le_refl 0, by norm_num⟩,
    restrict_range_safe (9/10) (1/2) 0 (by norm_num) (by norm_num)
      (by norm_num) (by norm_num) (le_refl 0) (by norm_num)⟩

/-- C2: the reverse branch of `logit_transform` is the exact inverse of the
forward restrict-then-logit chain: applied after the forward direction it
recovers the dequantized input `(x*255 + noise)/256` exactly. -/
theorem logit_transform_round_trip (c x noise : ℝ) (hc0 : 0 < c) (hc1 : c < 1)
    (hx0 : 0 ≤ x) (hx1 : x ≤ 1) (hn0 : 0 ≤ noise) (hn1 : noise < 1) :
    logit_transform_rev c (logit (restrict c (dequantize x noise))) =
      dequantize x noise := by
  obtain ⟨hd0, hd1⟩ := dequantize_mem hx0 hx1 hn0 hn1
  obtain ⟨_, _, hs0, hs1, _⟩ :=
    restrict_range_safe c x noise hc0 hc1 hx0 hx1 hn0 hn1
  rw [logit_transform_rev, sigmoid_logit hs0 hs1, restrict]
  field_simp

/-- Witness for C2 at constraint 0.9, pixel value 1/2 and noise 0. -/
theorem logit_transform_round_trip_witness :
    ((0:ℝ) < 9/10 ∧ (9/10:ℝ) < 1 ∧ (0:ℝ) ≤ 1/2 ∧ (1/2:ℝ) ≤ 1 ∧
      (0:ℝ) ≤ 0 ∧ (0:ℝ) < 1) ∧
    logit_transform_rev (9/10) (logit (restrict (9/10) (dequantize (1/2) 0))) =
      dequantize (1/2) 0 :=
  ⟨⟨by norm_num, by norm_num, by norm_num, by norm_num, le_refl 0, by norm_num⟩,
    logit_transform_round_trip (9/10) (1/2) 0 (by norm_num) (by norm_num)
      (by norm_num) (by norm_num) (le_refl 0) (by norm_num)⟩

/-! ## Theorems: bits per dimension -/

/-- C6: all three reported bits-per-dimension values — per-batch, train-epoch
average and validation average — are computed by the formula
`(-L + log(256)*D) / (D*log(2))` at the image dimension
`D = channel * size^2`. -/
theorem bits_per_dim_all_sites (L : ℝ) (channel size : ℕ) :
    bit_per_dim_batch L (image_size channel size) =
        bits_per_dim_spec L (image_size channel size) ∧
    mean_bit_per_dim_train L (image_size channel size) =
        bits_per_dim_spec L (image_size channel size) ∧
    mean_bit_per_dim_val L (image_size channel size) =
        bits_per_dim_spec L (image_size channel size) ∧
    bits_per_dim_spec L (image_size channel size) =
        (-L + Real.log 256 * (channel * size ^ 2 : ℕ)) /
          ((channel * size ^ 2 : ℕ) * Real.log 2) :=
  ⟨rfl, rfl, rfl, rfl⟩

/-! ## Theorems: dataset loading -/

/-- C9: `load` handles no errors — every dataset name outside
{cifar10, celeba, imnet32, imnet64} raises instead of returning splits, and
the caller in `train_rgb.main` does not catch it, so the failure propagates. -/
theorem load_unknown_dataset_raises (rows : List CelebARow) (dataset : String)
    (h1 : dataset ≠ "cifar10") (h2 : dataset ≠ "celeba")
    (h3 : dataset ≠ "imnet32") (h4 : dataset ≠ "imnet64") :
    load rows dataset = none ∧ main_load rows dataset = none := by
  have hl : load rows dataset = none := by
    simp [load, h1, h2, h3, h4]
  exact ⟨hl, hl⟩

/-- Witness for C9 at the dataset name "mnist". -/
theorem load_unknown_dataset_raises_witness :
    ("mnist" ≠ "cifar10" ∧ "mnist" ≠ "celeba" ∧
     "mnist" ≠ "imnet32" ∧ "mnist" ≠ "imnet64") ∧
    (load [] "mnist" = none ∧ main_load [] "mnist" = none) :=
  ⟨⟨by decide, by decide, by decide, by decide⟩,
    load_unknown_dataset_raises [] "mnist" (by decide) (by decide)
      (by decide) (by decide)⟩

/-- C10: for a split string other than "train", "val" or "test", `CelebA`
applies no partition filter: its length is the full manifest length and
indexing ranges over every row. -/
theorem celeba_unknown_split_no_filter (split : String) (rows : List CelebARow)
    (h1 : split ≠ "train") (h2 : split ≠ "val") (h3 : split ≠ "test") :
    celebaSelect split rows = rows ∧
    celebaLen split rows = rows.length ∧
    ∀ idx, celebaGetitem split rows idx = rows.get? idx := by
  have hsel : celebaSelect split rows = rows := by
    simp [celebaSelect, h1, h2, h3]
  refine ⟨hsel, ?_, ?_⟩
  · rw [celebaLen, hsel]
  · intro idx
    rw [celebaGetitem, hsel]

/-- Witness for C10 at the split string "all" on a two-row manifest. -/
theorem celeba_unknown_split_no_filter_witness :
    ("all" ≠ "train" ∧ "all" ≠ "val" ∧ "all" ≠ "test") ∧
    (celebaSelect "all" [⟨0, 0⟩, ⟨1, 2⟩] = [⟨0, 0⟩, ⟨1, 2⟩] ∧
     celebaLen "all" [⟨0, 0⟩, ⟨1, 2⟩] = ([⟨0, 0⟩, ⟨1, 2⟩] : List CelebARow).length ∧
     ∀ idx, celebaGetitem "all" [⟨0, 0⟩, ⟨1, 2⟩] idx =
       ([⟨0, 0⟩, ⟨1, 2⟩] : List CelebARow).get? idx) :=
  ⟨⟨by decide, by decide, by decide⟩,
    celeba_unknown_split_no_filter "all" [⟨0, 0⟩, ⟨1, 2⟩]
      (by decide) (by decide) (by decide)⟩

/-- C5 counterexample: on a manifest holding one train row (partition 0),
one validation row (partition 1) and one test row (partition 2), the celeba
train and validation split sizes sum to 2, not to the manifest's 3 rows. -/
theorem celeba_split_sum_counterexample :
    celebaLen "train" [⟨0, 0⟩, ⟨1, 1⟩, ⟨2, 2⟩] +
      celebaLen "val" [⟨0, 0⟩, ⟨1, 1⟩, ⟨2, 2⟩] ≠
    ([⟨0, 0⟩, ⟨1, 1⟩, ⟨2, 2⟩] : List CelebARow).length := by
  decide

lemma filter_partition_cover (rows : List CelebARow)
    (h : ∀ r ∈ rows, r.partition = 0 ∨ r.partition = 1 ∨ r.partition = 2) :
    (rows.filter (fun r => r.partition == 0)).length +
    (rows.filter (fun r => r.partition == 1)).length +
    (rows.filter (fun r => r.partition == 2)).length = rows.length := by
  induction rows with
  | nil => simp
  | cons r rs ih =>
    have hr := h r (List.mem_cons_self r rs)
    have hrs := ih (fun x hx => h x (List.mem_cons_of_mem r hx))
    rcases hr with h0 | h1 | h2
    · simp only [List.filter_cons, h0]
      simp
      omega
    · simp only [List.filter_cons, h1]
      simp
      omega
    · simp only [List.filter_cons, h2]
      simp
      omega

/-- C5 amended: the cifar10 splits 46000 and 4000 sum to the 50000-sample
training set; the imnet32/imnet64 splits 1250000 and 31149 sum to 1281149
(which `random_split` requires to equal the folder's image count); for
celeba the train (partition 0), validation (partition 1) and test
(partition 2) row counts together sum to the manifest's total row count
whenever every row carries one of the three partition values — train and
validation alone fall short of the total by the test rows. -/
theorem dataset_split_sums_amended (rows : List CelebARow)
    (h : ∀ r ∈ rows, r.partition = 0 ∨ r.partition = 1 ∨ r.partition = 2) :
    (load rows "cifar10").map (fun t => t.1 + t.2.1) = some 50000 ∧
    (load rows "imnet32").map (fun t => t.1 + t.2.1) = some 1281149 ∧
    (load rows "imnet64").map (fun t => t.1 + t.2.1) = some 1281149 ∧
    celebaLen "train" rows + celebaLen "val" rows + celebaLen "test" rows =
      rows.length ∧
    celebaLen "train" rows + celebaLen "val" rows =
      rows.length - celebaLen "test" rows := by
  have hcov := filter_partition_cover rows h
  have hsel : celebaLen "train" rows + celebaLen "val" rows +
      celebaLen "test" rows = rows.length := by
    simpa [celebaLen, celebaSelect] using hcov
  refine ⟨by simp [load], by simp [load], by simp [load], hsel, ?_⟩
  omega

/-- Witness for the amended C5 on the three-row manifest with one row per
partition. -/
theorem dataset_split_sums_amended_witness :
    (∀ r ∈ ([⟨0, 0⟩, ⟨1, 1⟩, ⟨2, 2⟩] : List CelebARow),
      r.partition = 0 ∨ r.partition = 1 ∨ r.partition = 2) ∧
    ((load [⟨0, 0⟩, ⟨1, 1⟩, ⟨2, 2⟩] "cifar10").map (fun t => t.1 + t.2.1) =
        some 50000 ∧
     (load [⟨0, 0⟩, ⟨1, 1⟩, ⟨2, 2⟩] "imnet32").map (fun t => t.1 + t.2.1) =
        some 1281149 ∧
     (load [⟨0, 0⟩, ⟨1, 1⟩, ⟨2, 2⟩] "imnet64").map (fun t => t.1 + t.2.1) =
        some 1281149 ∧
     celebaLen "train" [⟨0, 0⟩, ⟨1, 1⟩, ⟨2, 2⟩] +
       celebaLen "val" [⟨0, 0⟩, ⟨1, 1⟩, ⟨2, 2⟩] +
       celebaLen "test" [⟨0, 0⟩, ⟨1, 1⟩, ⟨2, 2⟩] =
       ([⟨0, 0⟩, ⟨1, 1⟩, ⟨2, 2⟩] : List CelebARow).length ∧
     celebaLen "train" [⟨0, 0⟩, ⟨1, 1⟩, ⟨2, 2⟩] +
       celebaLen "val" [⟨0, 0⟩, ⟨1, 1⟩, ⟨2, 2⟩] =
       ([⟨0, 0⟩, ⟨1, 1⟩, ⟨2, 2⟩] : List CelebARow).length -
         celebaLen "test" [⟨0, 0⟩, ⟨1, 1⟩, ⟨2, 2⟩]) :=
  ⟨by decide, dataset_split_sums_amended [⟨0, 0⟩, ⟨1, 1⟩, ⟨2, 2⟩] (by decide)⟩

/-! ## Theorems: training loop -/

/-- C3 counterexample: at a state whose best validation log-likelihood is 1,
an epoch with mean validation log-likelihood 1 does not improve, yet the
loop body still performs one checkpoint write (the unconditional
`torch.save` at line 179) while incrementing the early-stop counter —
refuting "in an epoch without improvement no checkpoint is written". -/
theorem checkpoint_nonimproving_counterexample :
    improves (some 1) 1 = false ∧
    (epochStep (fun _ => (1:ℚ)) ⟨1, some 1, 0⟩).2.checkpoint_writes = 1 ∧
    (epochStep (fun _ => (1:ℚ)) ⟨1, some 1, 0⟩).1.early_stop = 1 := by
  decide

/-- C3 amended: every epoch writes the checkpoint file at least once — the
unconditional save at line 179 — and writes it a second time exactly when
the epoch's mean validation log-likelihood improves on the best seen so far;
on improvement the early-stop counter resets to 0 and the best value is
updated, otherwise the counter increments. -/
theorem checkpoint_every_epoch (vals : ℕ → ℚ) (s : LoopState) :
    1 ≤ (epochStep vals s).2.checkpoint_writes ∧
    (epochStep vals s).2.checkpoint_writes =
      (if improves s.optimal_log_ll (vals (s.epoch + 1)) then 2 else 1) ∧
    (epochStep vals s).1.early_stop =
      (if improves s.optimal_log_ll (vals (s.epoch + 1)) then 0
       else s.early_stop + 1) ∧
    (epochStep vals s).1.optimal_log_ll =
      (if improves s.optimal_log_ll (vals (s.epoch + 1))
       then some (vals (s.epoch + 1)) else s.optimal_log_ll) := by
  by_cases h : improves s.optimal_log_ll (vals (s.epoch + 1)) <;>
    simp [epochStep, h]

/-- C8 counterexample: there is no single period `k` with the sample grid
saved exactly at the multiples of `k`: epoch 1 is saved, forcing `k = 1`,
but epoch 16 is not saved. -/
theorem sample_cadence_counterexample :
    ¬ ∃ k : ℕ, ∀ e : ℕ, 1 ≤ e → (sample_grid_saved_at e = true ↔ k ∣ e) := by
  rintro ⟨k, hk⟩
  have h1 : k ∣ 1 := (hk 1 (by norm_num)).mp (by decide)
  have hk1 : k = 1 := Nat.dvd_one.mp h1
  have h16 : sample_grid_saved_at 16 = true :=
    (hk 16 (by norm_num)).mpr (hk1 ▸ one_dvd 16)
  exact absurd h16 (by decide)

/-- C8 amended: every epoch generates a batch of samples; the sample grid
image is saved exactly at epochs that are at most 15, equal to 25, 35 or
45, or multiples of 10 — so from epoch 46 onward the cadence is the fixed
period 10. -/
theorem sample_generation_and_cadence (vals : ℕ → ℚ) (s : LoopState)
    (e : ℕ) (he : 46 ≤ e) :
    (epochStep vals s).2.samples_generated = true ∧
    (epochStep vals s).2.sample_grid_saved = sample_grid_saved_at (s.epoch + 1) ∧
    (∀ n : ℕ, sample_grid_saved_at n = true ↔
      (n ≤ 15 ∨ n = 25 ∨ n = 35 ∨ n = 45 ∨ 10 ∣ n)) ∧
    (sample_grid_saved_at e = true ↔ 10 ∣ e) := by
  have hchar : ∀ n : ℕ, sample_grid_saved_at n = true ↔
      (n ≤ 15 ∨ n = 25 ∨ n = 35 ∨ n = 45 ∨ 10 ∣ n) := by
    intro n
    simp only [sample_grid_saved_at, Bool.or_eq_true, decide_eq_true_eq,
      beq_iff_eq]
    omega
  refine ⟨?_, ?_, hchar, ?_⟩
  · by_cases h : improves s.optimal_log_ll (vals (s.epoch + 1)) <;>
      simp [epochStep, h]
  · by_cases h : improves s.optimal_log_ll (vals (s.epoch + 1)) <;>
      simp [epochStep, h]
  · rw [hchar e]
    omega

/-- Witness for the amended C8 at epoch 50. -/
theorem sample_generation_and_cadence_witness :
    46 ≤ 50 ∧
    ((epochStep (fun _ => (0:ℚ)) initLoopState).2.samples_generated = true ∧
     (epochStep (fun _ => (0:ℚ)) initLoopState).2.sample_grid_saved =
       sample_grid_saved_at (initLoopState.epoch + 1) ∧
     (∀ n : ℕ, sample_grid_saved_at n = true ↔
       (n ≤ 15 ∨ n = 25 ∨ n = 35 ∨ n = 45 ∨ 10 ∣ n)) ∧
     (sample_grid_saved_at 50 = true ↔ 10 ∣ 50)) :=
  ⟨by norm_num,
    sample_generation_and_cadence (fun _ => 0) initLoopState 50 (by norm_num)⟩

lemma epochStep_epoch (vals : ℕ → ℚ) (s : LoopState) :
    ((epochStep vals s).1).epoch = s.epoch + 1 := by
  by_cases h : improves s.optimal_log_ll (vals (s.epoch + 1)) <;>
    simp [epochStep, h]

lemma epochStep_early_stop (vals : ℕ → ℚ) (s : LoopState) :
    ((epochStep vals s).1).early_stop = 0 ∨
    ((epochStep vals s).1).early_stop = s.early_stop + 1 := by
  by_cases h : improves s.optimal_log_ll (vals (s.epoch + 1)) <;>
    simp [epochStep, h]

lemma runGo_spec (vals : ℕ → ℚ) (maxEpoch : ℕ) :
    ∀ fuel s, s.early_stop < 100 → s.epoch + fuel = maxEpoch →
      (runGo vals maxEpoch fuel s).epoch ≤ maxEpoch ∧
      (runGo vals maxEpoch fuel s).early_stop ≤ 100 ∧
      ((runGo vals maxEpoch fuel s).epoch = maxEpoch ∨
        (runGo vals maxEpoch fuel s).early_stop = 100) := by
  intro fuel
  induction fuel with
  | zero =>
    intro s hs he
    simp only [runGo]
    omega
  | succ fuel ih =>
    intro s hs he
    have hlt : s.epoch < maxEpoch := by omega
    have hepoch := epochStep_epoch vals s
    have hstop := epochStep_early_stop vals s
    simp only [runGo, hlt, if_pos]
    by_cases hbreak : 100 ≤ ((epochStep vals s).1).early_stop
    · rw [if_pos hbreak]
      omega
    · rw [if_neg hbreak]
      exact ih (epochStep vals s).1 (by omega) (by omega)

/-- C4: the training loop terminates — it runs at most `maxEpoch` epochs,
the early-stop counter never exceeds 100 (the loop breaks the moment an
epoch pushes it to 100), any exit before `maxEpoch` is exactly an
early-stop exit with counter 100, and each epoch resets the counter to 0 on
improvement and increments it by one otherwise. -/
theorem training_loop_terminates (vals : ℕ → ℚ) (maxEpoch : ℕ) :
    (run vals maxEpoch).epoch ≤ maxEpoch ∧
    (run vals maxEpoch).early_stop ≤ 100 ∧
    ((run vals maxEpoch).epoch = maxEpoch ∨
      (run vals maxEpoch).early_stop = 100) ∧
    (∀ s : LoopState,
      ((epochStep vals s).1.early_stop =
        (if improves s.optimal_log_ll (vals (s.epoch + 1)) then 0
         else s.early_stop + 1))) := by
  have h := runGo_spec vals maxEpoch maxEpoch initLoopState (by decide)
    (by simp [initLoopState])
  refine ⟨h.1, h.2.1, h.2.2, ?_⟩
  intro s
  by_cases hi : improves s.optimal_log_ll (vals (s.epoch + 1)) <;>
    simp [epochStep, hi]

end RealNVP
